import Mathlib

/-!
Shallow embedding of the user-synchronization and cache-invalidation core of
the course-platform repository: the tag namespace (src/lib/dataCache.ts), the
user repository (src/features/users/db/users.ts), the cached read accessor
(getUser), the Clerk service (src/services/clerk.ts) and the interactive sync
route (src/app/api/clerk/syncUsers/route.ts).

The relational `users` table is a list of rows; time is an explicit `Nat`
parameter (`new Date()` at a call site becomes the `now` argument); the
generated UUID primary key becomes an explicit `freshId` argument; a thrown
`new Error(msg)` becomes `Except.error msg`.  Each mutation returns, besides
the new table state and its result, a trace of observable events (relational
write commit, cache-tag invalidation, Clerk metadata write) so that ordering
claims can be stated.
-/

namespace CoursePlatform

/-- The `user_role` enum: `["admin", "user"]`. -/
inductive UserRole where
  | admin
  | user
deriving DecidableEq, Repr

/-- A row of the `users` table (src/drizzle/schema/user.ts): uuid primary key,
unique `clerkUserId`, profile fields, role, nullable `imageUrl` and
`deletedAt`, and the `createdAt`/`updatedAt` timestamps. -/
structure UserRow where
  id : String
  clerkUserId : String
  name : String
  email : String
  role : UserRole
  imageUrl : Option String
  deletedAt : Option Nat
  createdAt : Nat
  updatedAt : Nat
deriving DecidableEq, Repr

/-- The insert payload actually passed to `insertUser` by its callers:
`\x7b clerkUserId, name, email, imageUrl, role \x7d`. -/
structure NewUser where
  clerkUserId : String
  name : String
  email : String
  imageUrl : Option String
  role : UserRole
deriving DecidableEq, Repr

/-- `Partial<typeof UserTable.$inferInsert>` as passed to `updateUser`:
every updatable column optionally present. -/
structure UserPatch where
  clerkUserId : Option String := none
  name : Option String := none
  email : Option String := none
  role : Option UserRole := none
  imageUrl : Option (Option String) := none
  deletedAt : Option (Option Nat) := none
deriving DecidableEq, Repr

/-- Observable side effects of the core: a committed relational write, a
`revalidateTag` call, and a Clerk `updateUserMetadata` call. -/
inductive Event where
  | dbWriteCommit
  | invalidate (tag : String)
  | metadataWrite (clerkUserId : String) (dbId : String) (role : UserRole)
deriving DecidableEq, Repr

/-- `getGlobalTag` from src/lib/dataCache.ts. -/
def getGlobalTag (tag : String) : String :=
  "global:" ++ tag

/-- `getIdTag` from src/lib/dataCache.ts. -/
def getIdTag (tag : String) (id : String) : String :=
  "id:" ++ id ++ "-" ++ tag

/-- `getUserTag` from src/lib/dataCache.ts. -/
def getUserTag (tag : String) (userId : String) : String :=
  "user:" ++ userId ++ "-" ++ tag

/-- `getUserGlobalTag` from src/features/users/db/cache.ts. -/
def getUserGlobalTag : String :=
  getGlobalTag "users"

/-- `getUserIdTag` from src/features/users/db/cache.ts. -/
def getUserIdTag (id : String) : String :=
  getIdTag "users" id

/-- `revalidateUserCache`: two `revalidateTag` calls, global then by-id,
rendered as the trace of invalidation events they emit. -/
def revalidateUserCache (id : String) : List Event :=
  [Event.invalidate getUserGlobalTag, Event.invalidate (getUserIdTag id)]

/-- The column assignments of `onConflictDoUpdate \x7b set: data \x7d` applied to an
existing row, together with the schema's `$onUpdate(() => new Date())` on
`updatedAt`.  `id`, `createdAt` and `deletedAt` are not in the payload and
stay unchanged. -/
def applyUpsertSet (data : NewUser) (now : Nat) (r : UserRow) : UserRow :=
  { r with
    clerkUserId := data.clerkUserId
    name := data.name
    email := data.email
    imageUrl := data.imageUrl
    role := data.role
    updatedAt := now }

/-- The row produced by a fresh `insert ... values(data)`: database defaults
fill `id` (random uuid, the `freshId` argument), `createdAt`/`updatedAt`
(`defaultNow`), and `deletedAt` (null). -/
def mkNewRow (freshId : String) (now : Nat) (data : NewUser) : UserRow :=
  { id := freshId
    clerkUserId := data.clerkUserId
    name := data.name
    email := data.email
    role := data.role
    imageUrl := data.imageUrl
    deletedAt := none
    createdAt := now
    updatedAt := now }

/-- `insertUser` from src/features/users/db/users.ts: insert with
`onConflictDoUpdate` targeting `clerkUserId`; if the write returns no row
(`writeOk = false` models a constraint violation or connection failure that
yields an empty `returning()`), throw `Error("Failed to create user")` with
no invalidation; otherwise `revalidateUserCache(newUser.id)` and return the
row. -/
def insertUser (writeOk : Bool) (freshId : String) (now : Nat) (data : NewUser)
    (db : List UserRow) : List Event × List UserRow × Except String UserRow :=
  if writeOk then
    match db.find? (fun r => r.clerkUserId == data.clerkUserId) with
    | some r =>
        let r' := applyUpsertSet data now r
        ([Event.dbWriteCommit] ++ revalidateUserCache r'.id,
         db.map (fun q => if q.clerkUserId == data.clerkUserId then applyUpsertSet data now q else q),
         Except.ok r')
    | none =>
        let r' := mkNewRow freshId now data
        ([Event.dbWriteCommit] ++ revalidateUserCache r'.id,
         db ++ [r'],
         Except.ok r')
  else
    ([], db, Except.error "Failed to create user")

/-- The column assignments of `updateUser`'s `set(data)` for a partial patch,
plus the schema's `$onUpdate` on `updatedAt`. -/
def applyPatch (patch : UserPatch) (now : Nat) (r : UserRow) : UserRow :=
  { r with
    clerkUserId := patch.clerkUserId.getD r.clerkUserId
    name := patch.name.getD r.name
    email := patch.email.getD r.email
    role := patch.role.getD r.role
    imageUrl := patch.imageUrl.getD r.imageUrl
    deletedAt := patch.deletedAt.getD r.deletedAt
    updatedAt := now }

/-- `updateUser` from src/features/users/db/users.ts: update the rows whose
`clerkUserId` matches; if `returning()` is empty (no matching row), throw
`Error("Failed to update user")` with no invalidation; otherwise invalidate
and return the affected row. -/
def updateUser (clerkUserId : String) (patch : UserPatch) (now : Nat)
    (db : List UserRow) : List Event × List UserRow × Except String UserRow :=
  match db.find? (fun r => r.clerkUserId == clerkUserId) with
  | some r =>
      let r' := applyPatch patch now r
      ([Event.dbWriteCommit] ++ revalidateUserCache r'.id,
       db.map (fun q => if q.clerkUserId == clerkUserId then applyPatch patch now q else q),
       Except.ok r')
  | none => ([], db, Except.error "Failed to update user")

/-- The redaction `set` of `deleteUser`: `deletedAt = now`, fixed sentinels
for `email`, `name`, `clerkUserId`, `imageUrl = null`, and the schema's
`$onUpdate` on `updatedAt`. -/
def redact (now : Nat) (r : UserRow) : UserRow :=
  { r with
    deletedAt := some now
    email := "redacted@deleted.com"
    name := "Deleted User"
    clerkUserId := "deleted"
    imageUrl := none
    updatedAt := now }

/-- `deleteUser` from src/features/users/db/users.ts: soft delete by
redacting the matching rows; if no row matches, throw
`Error("Failed to delete user")` with no invalidation; otherwise invalidate
and return the affected row. -/
def deleteUser (clerkUserId : String) (now : Nat)
    (db : List UserRow) : List Event × List UserRow × Except String UserRow :=
  match db.find? (fun r => r.clerkUserId == clerkUserId) with
  | some r =>
      let r' := redact now r
      ([Event.dbWriteCommit] ++ revalidateUserCache r'.id,
       db.map (fun q => if q.clerkUserId == clerkUserId then redact now q else q),
       Except.ok r')
  | none => ([], db, Except.error "Failed to delete user")

/-- The cached read accessor `getUser`: `findFirst` where `UserTable.id = id`
(the memoization layer does not change the value returned, so the accessor is
embedded as the underlying relational read). -/
def getUser (id : String) (db : List UserRow) : Option UserRow :=
  db.find? (fun r => r.id == id)

/-- `syncClerkUserMetadata` from src/services/clerk.ts: one Clerk
`updateUserMetadata` call writing `\x7b dbId, role \x7d`. -/
def syncClerkUserMetadata (u : UserRow) : Event :=
  Event.metadataWrite u.clerkUserId u.id u.role

/-- The custom JWT session claims mirrored by Clerk:
`dbId` (internal database id) and `role`, both optional. -/
structure SessionClaims where
  dbId : Option String := none
  role : Option UserRole := none
deriving DecidableEq, Repr

/-- The result of `await auth()` as used by `getCurrentUser`: the Clerk user
id (null when signed out) and the session claims. -/
structure AuthState where
  userId : Option String
  sessionClaims : SessionClaims
deriving DecidableEq, Repr

/-- The outcome of `getCurrentUser`: either the redirect to
`/api/clerk/syncUsers` (user exists in Clerk but is not synced), or the
returned record `\x7b clerkUserId, userId, role, user \x7d`. -/
inductive CurrentUserResult where
  | redirectToSync
  | resolved (clerkUserId : Option String) (userId : Option String)
      (role : Option UserRole) (user : Option UserRow)
deriving DecidableEq, Repr

/-- `getCurrentUser` from src/services/clerk.ts: redirect to the sync route
when `userId != null && sessionClaims.dbId == null`; otherwise return the
Clerk id, the claims' `dbId` and `role`, and — when `allData` is set and
`dbId` is non-null — the row loaded through the cached `getUser`. -/
def getCurrentUser (allData : Bool) (st : AuthState) (db : List UserRow) :
    CurrentUserResult :=
  if st.userId.isSome && st.sessionClaims.dbId.isNone then
    CurrentUserResult.redirectToSync
  else
    CurrentUserResult.resolved st.userId st.sessionClaims.dbId st.sessionClaims.role
      (match allData, st.sessionClaims.dbId with
       | true, some d => getUser d db
       | _, _ => none)

/-- The Clerk user object consumed by the sync route: id, the name fields,
`primaryEmailAddress?.emailAddress`, `imageUrl`, and `publicMetadata.role`. -/
structure ClerkUser where
  id : String
  fullName : Option String := none
  firstName : Option String := none
  lastName : Option String := none
  username : Option String := none
  primaryEmail : Option String := none
  imageUrl : Option String := none
  metadataRole : Option UserRole := none
deriving DecidableEq, Repr

/-- JavaScript `a || b` on optional strings: `null`, `undefined` and the
empty string are falsy. -/
def jsOr (a : Option String) (b : String) : String :=
  match a with
  | some s => if s == "" then b else s
  | none => b

/-- The name fallback chain of the sync route:
`fullName || firstName || lastName || username || "User"`. -/
def resolveName (u : ClerkUser) : String :=
  jsOr u.fullName (jsOr u.firstName (jsOr u.lastName (jsOr u.username "User")))

/-- JavaScript `String.prototype.includes`. -/
def strIncludes (s sub : String) : Bool :=
  (s.splitOn sub).length > 1

/-- The redirect-target resolution of the sync route:
`referer && !referer.includes("/api/clerk/syncUsers") ? referer : "/"`. -/
def redirectTarget (referer : Option String) : String :=
  match referer with
  | some r => if r == "" then "/" else if strIncludes r "/api/clerk/syncUsers" then "/" else r
  | none => "/"

/-- The upsert payload the sync route passes to `insertUser`: the Clerk id,
the resolved name, the resolved email, the Clerk image url, and
`publicMetadata.role ?? "user"`. -/
def syncPayload (user : ClerkUser) (email : String) : NewUser :=
  { clerkUserId := user.id
    name := resolveName user
    email := email
    imageUrl := user.imageUrl
    role := user.metadataRole.getD UserRole.user }

/-- The observable outcome of the sync route: redirect to sign-in, an error
`Response`, or the final redirect. -/
inductive RouteResult where
  | redirectSignIn
  | errorResponse (status : Nat) (body : String)
  | redirect (url : String)
deriving DecidableEq, Repr

/-- The `GET` handler of src/app/api/clerk/syncUsers/route.ts: redirect to
sign-in when there is no current user; reject with a 500 response when no
non-empty email resolves; otherwise upsert through `insertUser` and, only
when that returned a row, call `syncClerkUserMetadata`; a thrown error is
caught and rendered as a 500 response (with the special message for
"password authentication failed").  The event trace collects the repository
trace followed by the metadata write, when performed. -/
def GET (u : Option ClerkUser) (referer : Option String) (writeOk : Bool)
    (freshId : String) (now : Nat) (db : List UserRow) :
    List Event × List UserRow × RouteResult :=
  match u with
  | none => ([], db, RouteResult.redirectSignIn)
  | some user =>
    match user.primaryEmail with
    | none => ([], db, RouteResult.errorResponse 500 "User email missing")
    | some email =>
      if email == "" then
        ([], db, RouteResult.errorResponse 500 "User email missing")
      else
        match insertUser writeOk freshId now (syncPayload user email) db with
        | (tr, db', Except.ok dbUser) =>
            (tr ++ [syncClerkUserMetadata dbUser], db',
             RouteResult.redirect (redirectTarget referer))
        | (tr, db', Except.error e) =>
            (tr, db',
             if strIncludes e "password authentication failed" then
               RouteResult.errorResponse 500
                 "Database connection failed. Please check your database is running and credentials are correct."
             else
               RouteResult.errorResponse 500 ("Sync failed: " ++ e))

/-- Sample row used by concrete evaluations. -/
def sampleRow : UserRow :=
  { id := "uuid-1"
    clerkUserId := "user_1"
    name := "Ada"
    email := "ada@example.com"
    role := UserRole.user
    imageUrl := some "https://img.example/a.png"
    deletedAt := none
    createdAt := 0
    updatedAt := 0 }

/-- Sample upsert payload used by concrete evaluations. -/
def samplePayload : NewUser :=
  { clerkUserId := "user_1"
    name := "Ada"
    email := "ada@example.com"
    imageUrl := none
    role := UserRole.user }

/-- Auth state used by concrete evaluations: session claims carry
`dbId = "uuid-9"` and `role = user` while the relational row for that id has
role `admin`. -/
def sampleAuth : AuthState :=
  { userId := some "clerk_9"
    sessionClaims := { dbId := some "uuid-9", role := some UserRole.user } }

/-- Relational row whose role (admin) differs from the session claims'
mirrored role (user). -/
def adminRow : UserRow :=
  { id := "uuid-9"
    clerkUserId := "clerk_9"
    name := "Root"
    email := "root@example.com"
    role := UserRole.admin
    imageUrl := none
    deletedAt := none
    createdAt := 0
    updatedAt := 0 }

/-- Clerk profile used by concrete evaluations of the sync route. -/
def sampleClerkUser : ClerkUser :=
  { id := "user_1"
    fullName := some "Ada Lovelace"
    primaryEmail := some "ada@example.com" }

/-- Clerk profile with no resolvable email. -/
def noEmailClerkUser : ClerkUser :=
  { id := "user_2"
    firstName := some "Bob" }

/-- The ordering discipline a repository mutation's output must satisfy:
on success the trace is exactly the committed relational write followed by
the two tag invalidations (global, then by the affected row's id); on
failure no invalidation is issued at all. -/
def mutationTraceOk (out : List Event × List UserRow × Except String UserRow) : Prop :=
  (∀ r, out.2.2 = Except.ok r →
      out.1 = [Event.dbWriteCommit, Event.invalidate getUserGlobalTag,
               Event.invalidate (getUserIdTag r.id)]) ∧
  (∀ e, out.2.2 = Except.error e → ∀ tag, Event.invalidate tag ∉ out.1)

/-- Any output of the shape produced by the three mutations satisfies the
ordering discipline. -/
theorem mutationTraceOk_of_shape
    (out : List Event × List UserRow × Except String UserRow)
    (h : (∃ r db', out = ([Event.dbWriteCommit] ++ revalidateUserCache r.id, db', Except.ok r)) ∨
         (∃ e db', out = ([], db', Except.error e))) :
    mutationTraceOk out := by
  rcases h with ⟨r, db', rfl⟩ | ⟨e, db', rfl⟩
  · constructor
    · intro q hq
      simp only [Except.ok.injEq] at hq
      subst hq
      rfl
    · intro e he
      simp at he
  · constructor
    · intro q hq
      simp at hq
    · intro e' _ tag
      simp

/-- C4: for every mutation of the users entity (insertUser, updateUser,
deleteUser), the invalidation of the tags global:users and id:(internalId)-users
happens strictly after the relational write commits successfully — the trace
on success is the commit followed by the two invalidations — and no
invalidation is ever issued when the write fails. -/
theorem invalidation_strictly_after_write (writeOk : Bool) (freshId : String)
    (t : Nat) (data : NewUser) (x : String) (patch : UserPatch)
    (db : List UserRow) :
    mutationTraceOk (insertUser writeOk freshId t data db) ∧
    mutationTraceOk (updateUser x patch t db) ∧
    mutationTraceOk (deleteUser x t db) := by
  refine ⟨?_, ?_, ?_⟩
  · apply mutationTraceOk_of_shape
    unfold insertUser
    cases writeOk with
    | false => right; exact ⟨_, _, rfl⟩
    | true =>
      left
      cases hfind : db.find? (fun r => r.clerkUserId == data.clerkUserId) with
      | some r => simp only [hfind]; exact ⟨_, _, rfl⟩
      | none => simp only [hfind]; exact ⟨_, _, rfl⟩
  · apply mutationTraceOk_of_shape
    unfold updateUser
    cases hfind : db.find? (fun r => r.clerkUserId == x) with
    | some r => left; simp only [hfind]; exact ⟨_, _, rfl⟩
    | none => right; simp only [hfind]; exact ⟨_, _, rfl⟩
  · apply mutationTraceOk_of_shape
    unfold deleteUser
    cases hfind : db.find? (fun r => r.clerkUserId == x) with
    | some r => left; simp only [hfind]; exact ⟨_, _, rfl⟩
    | none => right; simp only [hfind]; exact ⟨_, _, rfl⟩

/-- C9: the tag namespace functions are pure string templates: globalTag,
idTag and userScopedTag always produce "global:kind", "id:id-kind" and
"user:userId-kind", and in particular idTag "users" "abc" is "id:abc-users"
and globalTag "users" is "global:users". -/
theorem tag_format_stable :
    (∀ kind : String, getGlobalTag kind = "global:" ++ kind) ∧
    (∀ kind id : String, getIdTag kind id = "id:" ++ id ++ "-" ++ kind) ∧
    (∀ kind userId : String, getUserTag kind userId = "user:" ++ userId ++ "-" ++ kind) ∧
    getIdTag "users" "abc" = "id:abc-users" ∧
    getGlobalTag "users" = "global:users" :=
  ⟨fun _ => rfl, fun _ _ => rfl, fun _ _ => rfl, rfl, rfl⟩

/-- C8: whenever a row matches the given external id, deleteUser succeeds,
sets deletedAt to the current time on the returned row, redacts name, email
and clerkUserId to the fixed sentinels "Deleted User", "redacted@deleted.com"
and "deleted", makes imageUrl absent, and every matching row of the table is
redacted the same way. -/
theorem softDelete_redacts (db : List UserRow) (x : String) (t : Nat)
    (h : (db.find? (fun r => r.clerkUserId == x)).isSome) :
    ∃ r', (deleteUser x t db).2.2 = Except.ok r' ∧
      r'.deletedAt = some t ∧ r'.name = "Deleted User" ∧
      r'.email = "redacted@deleted.com" ∧ r'.clerkUserId = "deleted" ∧
      r'.imageUrl = none ∧
      ∀ q ∈ db, q.clerkUserId = x → redact t q ∈ (deleteUser x t db).2.1 := by
  cases hfind : db.find? (fun r => r.clerkUserId == x) with
  | none => rw [hfind] at h; simp at h
  | some r =>
    refine ⟨redact t r, ?_, rfl, rfl, rfl, rfl, rfl, ?_⟩
    · unfold deleteUser
      rw [hfind]
    · intro q hq hqx
      unfold deleteUser
      rw [hfind]
      simp only
      have : (fun q => if q.clerkUserId == x then redact t q else q) q = redact t q := by
        simp [hqx]
      exact this ▸ List.mem_map_of_mem _ hq

/-- C8 witness: the hypothesis and conclusion of softDelete_redacts at the
concrete one-row table. -/
theorem softDelete_redacts_witness :
    (([sampleRow].find? (fun r => r.clerkUserId == "user_1")).isSome = true) ∧
    (∃ r', (deleteUser "user_1" 3 [sampleRow]).2.2 = Except.ok r' ∧
      r'.deletedAt = some 3 ∧ r'.name = "Deleted User" ∧
      r'.email = "redacted@deleted.com" ∧ r'.clerkUserId = "deleted" ∧
      r'.imageUrl = none ∧
      ∀ q ∈ [sampleRow], q.clerkUserId = "user_1" →
        redact 3 q ∈ (deleteUser "user_1" 3 [sampleRow]).2.1) :=
  ⟨rfl, softDelete_redacts [sampleRow] "user_1" 3 rfl⟩

/-- C2: when no row matches the external id, updateUser fails with the
not-found error Error("Failed to update user"), and this failure is
distinguishable from the general write-layer failure of insertUser, which is
Error("Failed to create user"): the two error values differ. -/
theorem updateUser_notfound_distinct (db : List UserRow) (x : String)
    (patch : UserPatch) (t : Nat)
    (h : db.find? (fun r => r.clerkUserId == x) = none) :
    (updateUser x patch t db).2.2 = Except.error "Failed to update user" ∧
    (∀ freshId t2 data, (insertUser false freshId t2 data db).2.2 =
        Except.error "Failed to create user") ∧
    ("Failed to update user" : String) ≠ "Failed to create user" := by
  refine ⟨?_, fun freshId t2 data => rfl, by decide⟩
  unfold updateUser
  rw [h]

/-- C2 witness: the hypothesis and conclusion of updateUser_notfound_distinct
at the empty table. -/
theorem updateUser_notfound_distinct_witness :
    (([] : List UserRow).find? (fun r => r.clerkUserId == "user_1") = none) ∧
    ((updateUser "user_1" {} 0 []).2.2 = Except.error "Failed to update user" ∧
     (∀ freshId t2 data, (insertUser false freshId t2 data ([] : List UserRow)).2.2 =
        Except.error "Failed to create user") ∧
     ("Failed to update user" : String) ≠ "Failed to create user") :=
  ⟨rfl, updateUser_notfound_distinct [] "user_1" {} 0 rfl⟩

/-- C6: when the Clerk profile has no resolvable non-empty email, the sync
route rejects with the 500 "User email missing" response, leaves the users
table unchanged, and performs no repository write (the event trace is
empty). -/
theorem missing_email_rejected (user : ClerkUser) (referer : Option String)
    (writeOk : Bool) (freshId : String) (t : Nat) (db : List UserRow)
    (h : user.primaryEmail = none ∨ user.primaryEmail = some "") :
    GET (some user) referer writeOk freshId t db =
      ([], db, RouteResult.errorResponse 500 "User email missing") := by
  rcases h with h | h <;> simp [GET, h]

/-- C6 witness: the hypothesis and conclusion of missing_email_rejected at a
concrete profile with no email. -/
theorem missing_email_rejected_witness :
    (noEmailClerkUser.primaryEmail = none ∨ noEmailClerkUser.primaryEmail = some "") ∧
    GET (some noEmailClerkUser) none true "uuid-3" 4 [sampleRow] =
      ([], [sampleRow], RouteResult.errorResponse 500 "User email missing") :=
  ⟨Or.inl rfl,
   missing_email_rejected noEmailClerkUser none true "uuid-3" 4 [sampleRow] (Or.inl rfl)⟩

/-- C10: whenever getCurrentUser resolves (does not redirect to sync), the
returned role and internal id are exactly the session claims' role and dbId —
even when allData caused the full row to be loaded, the returned role is the
claims mirror, not the loaded row's role. -/
theorem session_role_from_claims (allData : Bool) (st : AuthState)
    (db : List UserRow) (c u : Option String) (r : Option UserRole)
    (usr : Option UserRow)
    (h : getCurrentUser allData st db = CurrentUserResult.resolved c u r usr) :
    r = st.sessionClaims.role ∧ u = st.sessionClaims.dbId := by
  unfold getCurrentUser at h
  by_cases hc : (st.userId.isSome && st.sessionClaims.dbId.isNone) = true
  · simp [hc] at h
  · simp only [hc, if_neg, Bool.false_eq_true, not_false_eq_true, if_false,
      CurrentUserResult.resolved.injEq] at h
    exact ⟨h.2.2.1.symm, h.2.1.symm⟩

/-- C10 witness: the session claims mirror role "user" while the loaded
relational row has role "admin"; the resolver still returns the claims
role. -/
theorem session_role_from_claims_witness :
    getCurrentUser true sampleAuth [adminRow] =
      CurrentUserResult.resolved (some "clerk_9") (some "uuid-9")
        (some UserRole.user) (some adminRow) ∧
    adminRow.role = UserRole.admin ∧
    (some UserRole.user = sampleAuth.sessionClaims.role ∧
     some "uuid-9" = sampleAuth.sessionClaims.dbId) :=
  ⟨rfl, rfl,
   session_role_from_claims true sampleAuth [adminRow] (some "clerk_9")
     (some "uuid-9") (some UserRole.user) (some adminRow) rfl⟩

/-- After a soft delete redaction with x different from the sentinel
"deleted", no row of the resulting table has clerkUserId x any more. -/
theorem no_match_after_redaction (db : List UserRow) (x : String) (t : Nat)
    (hx : x ≠ "deleted") :
    (db.map (fun q => if q.clerkUserId == x then redact t q else q)).find?
      (fun r => r.clerkUserId == x) = none := by
  rw [List.find?_eq_none]
  intro a ha
  rw [List.mem_map] at ha
  obtain ⟨q, hq, rfl⟩ := ha
  by_cases hqx : (q.clerkUserId == x) = true
  · simp only [hqx, if_true, redact, beq_iff_eq]
    exact fun hcontra => hx hcontra.symm
  · simp [hqx]

/-- C1 counterexample: soft delete of "user_1" succeeds, yet the next upsert
for "user_1" (the operation both sync flows call) succeeds instead of
failing, and creates a fresh row whose clerkUserId is "user_1" again. -/
theorem resync_after_delete_cex :
    (deleteUser "user_1" 3 [sampleRow]).2.2 = Except.ok (redact 3 sampleRow) ∧
    (insertUser true "uuid-2" 5 samplePayload
        (deleteUser "user_1" 3 [sampleRow]).2.1).2.2 =
      Except.ok (mkNewRow "uuid-2" 5 samplePayload) ∧
    mkNewRow "uuid-2" 5 samplePayload ∈
      (insertUser true "uuid-2" 5 samplePayload
        (deleteUser "user_1" 3 [sampleRow]).2.1).2.1 ∧
    (mkNewRow "uuid-2" 5 samplePayload).clerkUserId = "user_1" :=
  ⟨rfl, rfl, List.Mem.tail _ (List.Mem.head _), rfl⟩

/-- C1 amended: once softDeleteByExternalId(x) has succeeded, a subsequent
sync attempt for x does not fail: because the redacted row's external id was
collapsed to the sentinel "deleted", the upsert finds no conflicting row and
silently creates a fresh user row for x (with a new internal id), growing the
table by one. -/
theorem resync_after_delete_recreates (db : List UserRow) (x : String)
    (t t2 : Nat) (freshId : String) (data : NewUser) (row : UserRow)
    (hx : x ≠ "deleted") (hdata : data.clerkUserId = x)
    (hdel : (deleteUser x t db).2.2 = Except.ok row) :
    (insertUser true freshId t2 data (deleteUser x t db).2.1).2.2 =
      Except.ok (mkNewRow freshId t2 data) ∧
    mkNewRow freshId t2 data ∈
      (insertUser true freshId t2 data (deleteUser x t db).2.1).2.1 ∧
    (insertUser true freshId t2 data (deleteUser x t db).2.1).2.1.length =
      (deleteUser x t db).2.1.length + 1 := by
  cases hfind : db.find? (fun r => r.clerkUserId == x) with
  | none =>
    unfold deleteUser at hdel
    rw [hfind] at hdel
    simp at hdel
  | some r =>
    have hdb1 : (deleteUser x t db).2.1 =
        db.map (fun q => if q.clerkUserId == x then redact t q else q) := by
      unfold deleteUser
      rw [hfind]
    have hnone := no_match_after_redaction db x t hx
    rw [hdb1]
    unfold insertUser
    rw [hdata, hnone]
    refine ⟨rfl, ?_, ?_⟩
    · exact List.mem_append_right _ (List.Mem.head _)
    · simp

/-- C1 amended witness: the hypotheses and conclusion of
resync_after_delete_recreates at the concrete one-row table. -/
theorem resync_after_delete_recreates_witness :
    (("user_1" : String) ≠ "deleted" ∧ samplePayload.clerkUserId = "user_1" ∧
     (deleteUser "user_1" 3 [sampleRow]).2.2 = Except.ok (redact 3 sampleRow)) ∧
    ((insertUser true "uuid-7" 9 samplePayload
        (deleteUser "user_1" 3 [sampleRow]).2.1).2.2 =
      Except.ok (mkNewRow "uuid-7" 9 samplePayload) ∧
     mkNewRow "uuid-7" 9 samplePayload ∈
      (insertUser true "uuid-7" 9 samplePayload
        (deleteUser "user_1" 3 [sampleRow]).2.1).2.1 ∧
     (insertUser true "uuid-7" 9 samplePayload
        (deleteUser "user_1" 3 [sampleRow]).2.1).2.1.length =
      (deleteUser "user_1" 3 [sampleRow]).2.1.length + 1) :=
  ⟨⟨by decide, rfl, rfl⟩,
   resync_after_delete_recreates [sampleRow] "user_1" 3 9 "uuid-7" samplePayload
     (redact 3 sampleRow) (by decide) rfl rfl⟩

/-- Searching by id after an id-preserving conditional update: when ids are
pairwise distinct and the update keeps each row's id, the row found by the
update's predicate is found again by its id, updated. -/
theorem find?_id_of_map (p : UserRow → Bool) (g : UserRow → UserRow)
    (db : List UserRow) (r : UserRow)
    (hfind : db.find? p = some r)
    (hid : ∀ q, (g q).id = q.id)
    (hids : db.Pairwise (fun a b => a.id ≠ b.id)) :
    (db.map (fun q => if p q then g q else q)).find? (fun q => q.id == r.id) =
      some (if p r then g r else r) := by
  induction db with
  | nil => simp at hfind
  | cons a l ih =>
    rw [List.pairwise_cons] at hids
    by_cases hpa : p a
    · rw [List.find?_cons_of_pos _ hpa] at hfind
      injection hfind with h1
      subst h1
      have hhead : ((if p a then g a else a).id == a.id) = true := by
        by_cases h : p a <;> simp [h, hid a]
      rw [List.map_cons]
      exact List.find?_cons_of_pos _ hhead
    · rw [List.find?_cons_of_neg _ hpa] at hfind
      have hmem := List.mem_of_find?_eq_some hfind
      have hne : a.id ≠ r.id := hids.1 r hmem
      have hhead : ¬(((if p a then g a else a).id == r.id) = true) := by
        simp [hpa, hne]
      rw [List.map_cons]
      exact (List.find?_cons_of_neg (p := fun q : UserRow => q.id == r.id) _ hhead).trans
        (ih hfind hids.2)

/-- C3 counterexample: after the soft delete of "user_1", the Cache Read
Layer accessor getUser applied to the redacted row's internal id returns the
redacted row (whose deletedAt is set), not absent. -/
theorem getUser_returns_redacted_cex :
    (deleteUser "user_1" 3 [sampleRow]).2.2 = Except.ok (redact 3 sampleRow) ∧
    (redact 3 sampleRow).deletedAt = some 3 ∧
    getUser "uuid-1" (deleteUser "user_1" 3 [sampleRow]).2.1 =
      some (redact 3 sampleRow) :=
  ⟨rfl, rfl, rfl⟩

/-- C3 amended: soft-deleted rows are not excluded by the accessor: whenever
a soft delete succeeds (and row ids are pairwise distinct), getUser at the
affected row's internal id returns the redacted row, with deletedAt set,
rather than absent. -/
theorem getUser_includes_soft_deleted (db : List UserRow) (x : String)
    (t : Nat) (row : UserRow)
    (hids : db.Pairwise (fun a b => a.id ≠ b.id))
    (hdel : (deleteUser x t db).2.2 = Except.ok row) :
    getUser row.id (deleteUser x t db).2.1 = some row ∧
    row.deletedAt = some t := by
  cases hfind : db.find? (fun r => r.clerkUserId == x) with
  | none =>
    unfold deleteUser at hdel
    rw [hfind] at hdel
    simp at hdel
  | some r =>
    unfold deleteUser at hdel ⊢
    rw [hfind] at hdel ⊢
    simp only [Except.ok.injEq] at hdel
    subst hdel
    refine ⟨?_, rfl⟩
    have hp := List.find?_some hfind
    have hmap := find?_id_of_map (fun q => q.clerkUserId == x) (redact t) db r hfind
      (fun q => rfl) hids
    rw [if_pos hp] at hmap
    exact hmap

/-- C3 amended witness: the hypotheses and conclusion of
getUser_includes_soft_deleted at the concrete one-row table. -/
theorem getUser_includes_soft_deleted_witness :
    (([sampleRow].Pairwise (fun a b => a.id ≠ b.id)) ∧
     (deleteUser "user_1" 3 [sampleRow]).2.2 = Except.ok (redact 3 sampleRow)) ∧
    (getUser (redact 3 sampleRow).id (deleteUser "user_1" 3 [sampleRow]).2.1 =
      some (redact 3 sampleRow) ∧
     (redact 3 sampleRow).deletedAt = some 3) :=
  ⟨⟨List.pairwise_singleton _ _, rfl⟩,
   getUser_includes_soft_deleted [sampleRow] "user_1" 3 (redact 3 sampleRow)
     (List.pairwise_singleton _ _) rfl⟩

/-- Case analysis of an insertUser output: either it succeeds with some row
and its trace is the commit followed by the two invalidations, or it fails
with the create error and an empty trace. -/
theorem insertUser_cases (writeOk : Bool) (freshId : String) (t : Nat)
    (data : NewUser) (db : List UserRow) :
    (∃ row, (insertUser writeOk freshId t data db).2.2 = Except.ok row ∧
       (insertUser writeOk freshId t data db).1 =
         [Event.dbWriteCommit, Event.invalidate getUserGlobalTag,
          Event.invalidate (getUserIdTag row.id)]) ∨
    ((insertUser writeOk freshId t data db).2.2 =
        Except.error "Failed to create user" ∧
     (insertUser writeOk freshId t data db).1 = []) := by
  unfold insertUser
  cases writeOk with
  | false => right; exact ⟨rfl, rfl⟩
  | true =>
    cases hfind : db.find? (fun r => r.clerkUserId == data.clerkUserId) with
    | some r => left; exact ⟨_, rfl, rfl⟩
    | none => left; exact ⟨_, rfl, rfl⟩

/-- C5: whenever the sync route's trace contains a metadata write-back, the
run was the fully successful one: the trace is exactly the committed upsert
write, the two invalidations and then the metadata write (so the write-back
happened only after the relational upsert succeeded and returned a row), the
route redirected, and the metadata written is exactly the returned row's
Clerk id, internal id and role. -/
theorem metadata_writeback_only_after_upsert (u : Option ClerkUser)
    (referer : Option String) (writeOk : Bool) (freshId : String) (t : Nat)
    (db : List UserRow) (c d : String) (ro : UserRole)
    (h : Event.metadataWrite c d ro ∈ (GET u referer writeOk freshId t db).1) :
    ∃ row url,
      (GET u referer writeOk freshId t db).1 =
        [Event.dbWriteCommit, Event.invalidate getUserGlobalTag,
         Event.invalidate (getUserIdTag row.id), syncClerkUserMetadata row] ∧
      (GET u referer writeOk freshId t db).2.2 = RouteResult.redirect url ∧
      c = row.clerkUserId ∧ d = row.id ∧ ro = row.role := by
  cases u with
  | none => simp [GET] at h
  | some user =>
    cases hpe : user.primaryEmail with
    | none => simp [GET, hpe] at h
    | some email =>
      by_cases he : (email == "") = true
      · simp [GET, hpe, he] at h
      · rcases hout : insertUser writeOk freshId t (syncPayload user email) db with
          ⟨tr, db2, res⟩
        have hc := insertUser_cases writeOk freshId t (syncPayload user email) db
        rw [hout] at hc
        dsimp only at hc
        cases res with
        | error e =>
          rcases hc with ⟨row, hok, htr⟩ | ⟨herr, htr⟩
          · simp at hok
          · simp [GET, hpe, he, hout, htr] at h
        | ok row =>
          rcases hc with ⟨row', hok, htr⟩ | ⟨herr, htr⟩
          · simp only [Except.ok.injEq] at hok
            subst hok
            refine ⟨row, redirectTarget referer, ?_, ?_, ?_⟩
            · simp [GET, hpe, he, hout, htr, syncClerkUserMetadata]
            · simp [GET, hpe, he, hout]
            · simp [GET, hpe, he, hout, htr, syncClerkUserMetadata] at h
              rcases h with ⟨hc1, hc2, hc3⟩
              exact ⟨hc1, hc2, hc3⟩
          · simp at herr

/-- C5 witness: the hypothesis and conclusion of
metadata_writeback_only_after_upsert at a concrete successful sync run. -/
theorem metadata_writeback_only_after_upsert_witness :
    (Event.metadataWrite "user_1" "uuid-4" UserRole.user ∈
      (GET (some sampleClerkUser) none true "uuid-4" 7 []).1) ∧
    (∃ row url,
      (GET (some sampleClerkUser) none true "uuid-4" 7 []).1 =
        [Event.dbWriteCommit, Event.invalidate getUserGlobalTag,
         Event.invalidate (getUserIdTag row.id), syncClerkUserMetadata row] ∧
      (GET (some sampleClerkUser) none true "uuid-4" 7 []).2.2 =
        RouteResult.redirect url ∧
      "user_1" = row.clerkUserId ∧ "uuid-4" = row.id ∧
      UserRole.user = row.role) := by
  have hmem : Event.metadataWrite "user_1" "uuid-4" UserRole.user ∈
      (GET (some sampleClerkUser) none true "uuid-4" 7 []).1 := by
    show Event.metadataWrite "user_1" "uuid-4" UserRole.user ∈
      [Event.dbWriteCommit, Event.invalidate getUserGlobalTag,
       Event.invalidate (getUserIdTag "uuid-4"),
       Event.metadataWrite "user_1" "uuid-4" UserRole.user]
    exact List.Mem.tail _ (List.Mem.tail _ (List.Mem.tail _ (List.Mem.head _)))
  exact ⟨hmem,
    metadata_writeback_only_after_upsert (some sampleClerkUser) none true
      "uuid-4" 7 [] "user_1" "uuid-4" UserRole.user hmem⟩

/-- A conditional update whose update function preserves the predicate keeps
the first match: searching again finds the updated first match. -/
theorem find?_map_pres (p : UserRow → Bool) (g : UserRow → UserRow)
    (db : List UserRow) (r : UserRow)
    (hfind : db.find? p = some r)
    (hg : ∀ q, p q = true → p (g q) = true) :
    (db.map (fun q => if p q then g q else q)).find? p = some (g r) := by
  induction db with
  | nil => simp at hfind
  | cons a l ih =>
    by_cases hpa : p a = true
    · rw [List.find?_cons_of_pos _ hpa] at hfind
      injection hfind with h1
      subst h1
      rw [List.map_cons, if_pos hpa]
      exact List.find?_cons_of_pos _ (hg a hpa)
    · rw [List.find?_cons_of_neg _ hpa] at hfind
      rw [List.map_cons]
      have hhead : ¬ p (if p a = true then g a else a) = true := by
        rw [if_neg hpa]
        exact hpa
      exact (List.find?_cons_of_neg (p := p) _ hhead).trans (ih hfind)

/-- A conditional update whose update function preserves the predicate does
not change the number of matching rows. -/
theorem countP_map_update (p : UserRow → Bool) (g : UserRow → UserRow)
    (db : List UserRow)
    (hg : ∀ q, p q = true → p (g q) = true) :
    (db.map (fun q => if p q then g q else q)).countP p = db.countP p := by
  induction db with
  | nil => rfl
  | cons a l ih =>
    rw [List.map_cons, List.countP_cons, List.countP_cons, ih]
    by_cases hpa : p a = true
    · simp [hpa, hg a hpa]
    · simp [hpa]

/-- C7: upserting the same payload twice (same externalId, identical field
values) leaves exactly one row for that externalId, the second call keeps the
row count unchanged, the internalId is the same after both calls, and
updatedAt is advanced by the second call. -/
theorem upsert_idempotent (db : List UserRow) (data : NewUser)
    (id1 id2 : String) (t1 t2 : Nat)
    (huniq : db.countP (fun r => r.clerkUserId == data.clerkUserId) ≤ 1)
    (ht : t1 < t2) :
    ∃ u1 u2,
      (insertUser true id1 t1 data db).2.2 = Except.ok u1 ∧
      (insertUser true id2 t2 data (insertUser true id1 t1 data db).2.1).2.2 =
        Except.ok u2 ∧
      u2.id = u1.id ∧ u1.updatedAt < u2.updatedAt ∧
      (insertUser true id2 t2 data (insertUser true id1 t1 data db).2.1).2.1.countP
        (fun r => r.clerkUserId == data.clerkUserId) = 1 ∧
      (insertUser true id2 t2 data (insertUser true id1 t1 data db).2.1).2.1.length =
        (insertUser true id1 t1 data db).2.1.length := by
  have hg : ∀ t : Nat, ∀ q : UserRow,
      (fun r : UserRow => r.clerkUserId == data.clerkUserId) q = true →
      (fun r : UserRow => r.clerkUserId == data.clerkUserId)
        (applyUpsertSet data t q) = true := by
    intro t q _
    simp [applyUpsertSet]
  cases hfind : db.find? (fun r => r.clerkUserId == data.clerkUserId) with
  | some r =>
    have h1 : insertUser true id1 t1 data db =
        ([Event.dbWriteCommit] ++ revalidateUserCache (applyUpsertSet data t1 r).id,
         db.map (fun q => if q.clerkUserId == data.clerkUserId then
           applyUpsertSet data t1 q else q),
         Except.ok (applyUpsertSet data t1 r)) := by
      unfold insertUser
      rw [hfind]
      rfl
    have hfind1 := find?_map_pres (fun r => r.clerkUserId == data.clerkUserId)
      (applyUpsertSet data t1) db r hfind (hg t1)
    have h2 : insertUser true id2 t2 data
        (db.map (fun q => if q.clerkUserId == data.clerkUserId then
          applyUpsertSet data t1 q else q)) =
        ([Event.dbWriteCommit] ++
           revalidateUserCache (applyUpsertSet data t2 (applyUpsertSet data t1 r)).id,
         (db.map (fun q => if q.clerkUserId == data.clerkUserId then
            applyUpsertSet data t1 q else q)).map
           (fun q => if q.clerkUserId == data.clerkUserId then
            applyUpsertSet data t2 q else q),
         Except.ok (applyUpsertSet data t2 (applyUpsertSet data t1 r))) := by
      unfold insertUser
      rw [hfind1]
      rfl
    rw [h1]
    dsimp only
    rw [h2]
    dsimp only
    refine ⟨applyUpsertSet data t1 r,
      applyUpsertSet data t2 (applyUpsertSet data t1 r),
      rfl, rfl, rfl, ht, ?_, ?_⟩
    · rw [countP_map_update _ _ _ (hg t2), countP_map_update _ _ _ (hg t1)]
      have hp := List.find?_some hfind
      have hpos : 0 < db.countP (fun r => r.clerkUserId == data.clerkUserId) :=
        List.countP_pos_iff.mpr ⟨r, List.mem_of_find?_eq_some hfind, hp⟩
      omega
    · simp
  | none =>
    have h1 : insertUser true id1 t1 data db =
        ([Event.dbWriteCommit] ++ revalidateUserCache (mkNewRow id1 t1 data).id,
         db ++ [mkNewRow id1 t1 data],
         Except.ok (mkNewRow id1 t1 data)) := by
      unfold insertUser
      rw [hfind]
      rfl
    have hfind1 : (db ++ [mkNewRow id1 t1 data]).find?
        (fun r => r.clerkUserId == data.clerkUserId) =
        some (mkNewRow id1 t1 data) := by
      rw [List.find?_append, hfind]
      simp [mkNewRow]
    have h2 : insertUser true id2 t2 data (db ++ [mkNewRow id1 t1 data]) =
        ([Event.dbWriteCommit] ++
           revalidateUserCache (applyUpsertSet data t2 (mkNewRow id1 t1 data)).id,
         (db ++ [mkNewRow id1 t1 data]).map
           (fun q => if q.clerkUserId == data.clerkUserId then
            applyUpsertSet data t2 q else q),
         Except.ok (applyUpsertSet data t2 (mkNewRow id1 t1 data))) := by
      unfold insertUser
      rw [hfind1]
      rfl
    rw [h1]
    dsimp only
    rw [h2]
    dsimp only
    refine ⟨mkNewRow id1 t1 data,
      applyUpsertSet data t2 (mkNewRow id1 t1 data),
      rfl, rfl, rfl, ht, ?_, ?_⟩
    · rw [countP_map_update _ _ _ (hg t2), List.countP_append]
      have hz : db.countP (fun r => r.clerkUserId == data.clerkUserId) = 0 :=
        List.countP_eq_zero.mpr (List.find?_eq_none.mp hfind)
      rw [hz]
      simp [mkNewRow]
    · simp

/-- C7 witness: the hypotheses and conclusion of upsert_idempotent starting
from the empty table. -/
theorem upsert_idempotent_witness :
    (([] : List UserRow).countP
        (fun r => r.clerkUserId == samplePayload.clerkUserId) ≤ 1 ∧ 0 < 1) ∧
    (∃ u1 u2,
      (insertUser true "uuid-5" 0 samplePayload []).2.2 = Except.ok u1 ∧
      (insertUser true "uuid-6" 1 samplePayload
        (insertUser true "uuid-5" 0 samplePayload []).2.1).2.2 = Except.ok u2 ∧
      u2.id = u1.id ∧ u1.updatedAt < u2.updatedAt ∧
      (insertUser true "uuid-6" 1 samplePayload
        (insertUser true "uuid-5" 0 samplePayload []).2.1).2.1.countP
        (fun r => r.clerkUserId == samplePayload.clerkUserId) = 1 ∧
      (insertUser true "uuid-6" 1 samplePayload
        (insertUser true "uuid-5" 0 samplePayload []).2.1).2.1.length =
        (insertUser true "uuid-5" 0 samplePayload []).2.1.length) :=
  ⟨⟨by decide, by decide⟩,
   upsert_idempotent [] samplePayload "uuid-5" "uuid-6" 0 1 (by decide) (by decide)⟩

end CoursePlatform
